import Mathlib

/-!
Shallow embedding of the open-addressing hash map in `src/HashMap.hpp`
(the variant with tombstone bookkeeping: `deletedCount_`, `clear`, `reserve`,
`rehashEverything`) together with its raw slot storage `FixedUninitVec`.

Modelling conventions:
* `size_t` values (hashes, indices, counters) are modelled as `Nat`.  The
  injected hash function is modelled as an arbitrary `K → Nat`; concrete
  traces use values far below `2^64`, where the C++ and `Nat` arithmetic
  agree.
* The metadata byte array is a `List Nat` (values 0..255); `Empty = 0x80`,
  `Deleted = 0xFF`, and a slot is free iff its metadata is `≥ 0x80`.
* The uninitialized slot buffer (`FixedUninitVec<Slot>`) is a
  `List (Option (K × V))`: `some kv` is a constructed slot, `none` is raw
  (destroyed or never-constructed) memory.  Reading a destroyed slot is
  undefined behaviour in C++; the model reads it as `none` and treats the
  key comparison against it as failed.
* The two unbounded probe loops (`locationForInsertion`, `doFind`) are given
  `capacity` steps of fuel.  The loop state is just the running index, which
  moves deterministically as `(idex + 1) % capacity`, so if the loop has not
  exited after `capacity` steps it has wrapped around to its start index and
  repeats forever: the fuel-out value `none` in the outer `Option` is a
  faithful marker for non-termination of the C++ loop (and for the
  division-by-zero UB of `h1 % capacity` when `capacity = 0`).
* The float comparisons `loadFactor() >= 0.875f` and
  `deletedCount_ >= size_ * 0.5f` are modelled as the exact rational
  comparisons `8*size ≥ 7*capacity` and `2*deletedCount ≥ size`.  For counts
  below `2^24` every quantity involved is an exactly representable float and
  the comparisons coincide; the C++ special case `capacity == 0` (where
  `loadFactor()` is NaN and the comparison is false) is modelled by the
  explicit `capacity ≠ 0` conjunct.
-/

set_option maxRecDepth 8000

namespace dnsge

/-- Metadata sentinel `Empty = 0b10000000`: slot never occupied. -/
def EmptyMd : Nat := 128

/-- Metadata sentinel `Deleted = 0b11111111`: tombstone. -/
def DeletedMd : Nat := 255

/-- detail::IsFree: the high bit of the metadata byte is set. -/
def IsFree (m : Nat) : Bool := decide (128 ≤ m)

/-- detail::H1: remove the lower 7 bits of the hash. -/
def H1 (hash : Nat) : Nat := hash / 128

/-- detail::H2: the lower 7 bits of the hash. -/
def H2 (hash : Nat) : Nat := hash % 128

/-- The private InsertionLoc struct of HashMap. -/
structure InsertionLoc where
  idex : Nat
  h2 : Nat
deriving DecidableEq, Repr

/-- The HashMap state: capacity, live-slot count, metadata array, raw slot
buffer, tombstone counter.  Mirrors the data members declared at the bottom
of the class. -/
structure Table (K V : Type) where
  capacity : Nat
  size : Nat
  metadata : List Nat
  slots : List (Option (K × V))
  deletedCount : Nat
deriving DecidableEq, Repr

/-- HashMap::DefaultInitialCapacity. -/
def DefaultInitialCapacity : Nat := 16

/-- HashMap(initialCapacity): all-Empty metadata, uninitialized slots,
size = deletedCount = 0. -/
def mkTable (K V : Type) (initialCapacity : Nat) : Table K V :=
  ⟨initialCapacity, 0, List.replicate initialCapacity EmptyMd,
    List.replicate initialCapacity none, 0⟩

/-- The key comparison `eq(key, slots_[idex].key)` performed by both probe
loops.  Reading a free slot is UB in C++; the model yields `false` there. -/
def keyEqAt {K V : Type} (eqf : K → K → Bool) (t : Table K V) (idex : Nat)
    (key : K) : Bool :=
  match t.slots.getD idex none with
  | some kv => eqf key kv.1
  | none => false

/-- The `while (true)` loop body of HashMap::locationForInsertion, with
`fuel` remaining steps.  Returns `some (some loc)` for "insert here",
`some none` for "key already exists", `none` for fuel exhaustion (the C++
loop never exits). -/
def probeIns {K V : Type} (eqf : K → K → Bool) (t : Table K V) (key : K)
    (h2 : Nat) : Nat → Nat → Option (Option InsertionLoc)
  | 0, _ => none
  | fuel + 1, idex =>
    let m := t.metadata.getD idex 0
    if IsFree m then some (some ⟨idex, h2⟩)
    else if m == h2 && keyEqAt eqf t idex key then some none
    else probeIns eqf t key h2 fuel ((idex + 1) % t.capacity)

/-- HashMap::locationForInsertion. -/
def locationForInsertion {K V : Type} (hashf : K → Nat) (eqf : K → K → Bool)
    (t : Table K V) (key : K) : Option (Option InsertionLoc) :=
  let hash := hashf key
  probeIns eqf t key (H2 hash) t.capacity (H1 hash % t.capacity)

/-- HashMap::insertUnchecked: find the insertion location, store the
metadata byte and the slot, increment `size_`.  Note that the source does
NOT touch `deletedCount_` even when the consumed free slot was a tombstone.
First component: `none` = the probe loop diverged, `some none` = key
already exists (no insertion), `some (some i)` = inserted at index `i`. -/
def insertUnchecked {K V : Type} (hashf : K → Nat) (eqf : K → K → Bool)
    (t : Table K V) (kv : K × V) : Option (Option Nat) × Table K V :=
  match locationForInsertion hashf eqf t kv.1 with
  | none => (none, t)
  | some none => (some none, t)
  | some (some loc) =>
    (some (some loc.idex),
      { t with
        metadata := t.metadata.set loc.idex loc.h2,
        slots := t.slots.set loc.idex (some kv),
        size := t.size + 1 })

/-- One iteration of the rehash loops in growAndRehash/rehashEverything:
move slot `i` of `src` into `acc` when it is live. -/
def reinsertStep {K V : Type} (hashf : K → Nat) (eqf : K → K → Bool)
    (src : Table K V) (acc : Table K V) (i : Nat) : Table K V :=
  if IsFree (src.metadata.getD i 0) then acc
  else
    match src.slots.getD i none with
    | some kv => (insertUnchecked hashf eqf acc kv).2
    | none => acc

/-- The full rehash loop: `for i in 0..capacity-1, insertUnchecked(move(slots_[i]))`. -/
def reinsertAll {K V : Type} (hashf : K → Nat) (eqf : K → K → Bool)
    (src : Table K V) (acc : Table K V) : Table K V :=
  (List.range src.capacity).foldl (reinsertStep hashf eqf src) acc

/-- HashMap::growAndRehash(size_t newCapacity): no-op unless the capacity
strictly grows; otherwise build a fresh table and move every live slot into
it (the loop is skipped when the table is empty). -/
def growAndRehashTo {K V : Type} (hashf : K → Nat) (eqf : K → K → Bool)
    (t : Table K V) (newCapacity : Nat) : Table K V :=
  if newCapacity ≤ t.capacity then t
  else if t.size = 0 then mkTable K V newCapacity
  else reinsertAll hashf eqf t (mkTable K V newCapacity)

/-- HashMap::growAndRehash(): double the capacity, or use
DefaultInitialCapacity when growing from zero. -/
def growAndRehash {K V : Type} (hashf : K → Nat) (eqf : K → K → Bool)
    (t : Table K V) : Table K V :=
  growAndRehashTo hashf eqf t
    (if t.capacity = 0 then DefaultInitialCapacity else 2 * t.capacity)

/-- HashMap::needToGrowForInsert: `loadFactor() >= MaxLoadFactor || size_ == capacity_`,
with `loadFactor() = (float)size_ / capacity_`.  The comparison is the exact
rational one (`8*size ≥ 7*capacity`), guarded by `capacity ≠ 0` because in
C++ the NaN produced by `0/0` compares false. -/
def needToGrowForInsert {K V : Type} (t : Table K V) : Bool :=
  (!(t.capacity == 0) && decide (7 * t.capacity ≤ 8 * t.size))
    || t.size == t.capacity

/-- HashMap::insert: grow if needed, then insertUnchecked. -/
def insert {K V : Type} (hashf : K → Nat) (eqf : K → K → Bool)
    (t : Table K V) (kv : K × V) : Option (Option Nat) × Table K V :=
  let t1 := if needToGrowForInsert t then growAndRehash hashf eqf t else t
  insertUnchecked hashf eqf t1 kv

/-- The `while (true)` loop body of HashMap::doFind, with `fuel` remaining
steps.  `some (some i)` = key found at index `i`, `some none` = hit Empty
(not found), `none` = fuel exhaustion (the C++ loop never exits). -/
def probeFind {K V : Type} (eqf : K → K → Bool) (t : Table K V) (key : K)
    (h2 : Nat) : Nat → Nat → Option (Option Nat)
  | 0, _ => none
  | fuel + 1, idex =>
    let m := t.metadata.getD idex 0
    if m == h2 && keyEqAt eqf t idex key then some (some idex)
    else if m == EmptyMd then some none
    else probeFind eqf t key h2 fuel ((idex + 1) % t.capacity)

/-- HashMap::doFind. -/
def doFind {K V : Type} (hashf : K → Nat) (eqf : K → K → Bool)
    (t : Table K V) (key : K) : Option (Option Nat) :=
  let hash := hashf key
  probeFind eqf t key (H2 hash) t.capacity (H1 hash % t.capacity)

/-- HashMap::deleteSlot: tombstone the metadata, bump `deletedCount_`,
destroy the slot. -/
def deleteSlot {K V : Type} (t : Table K V) (idex : Nat) : Table K V :=
  { t with
    metadata := t.metadata.set idex DeletedMd,
    slots := t.slots.set idex none,
    deletedCount := t.deletedCount + 1 }

/-- HashMap::needRehash: `deletedCount_ >= size_ * 0.5f`, as the exact
rational comparison. -/
def needRehash {K V : Type} (t : Table K V) : Bool :=
  decide (t.size ≤ 2 * t.deletedCount)

/-- HashMap::rehashEverything: early-return when the table is empty
(keeping any tombstones and the counter), otherwise move every live slot
into a fresh same-capacity table. -/
def rehashEverything {K V : Type} (hashf : K → Nat) (eqf : K → K → Bool)
    (t : Table K V) : Table K V :=
  if t.size = 0 then t
  else reinsertAll hashf eqf t (mkTable K V t.capacity)

/-- The state right after the `deleteSlot(idex); size_ -= 1;` statements of
HashMap::erase(iterator).  The C++ decrement is on `size_t`; in every state
where erase found a live slot the size is positive, so Nat subtraction
agrees. -/
def postDelete {K V : Type} (t : Table K V) (idex : Nat) : Table K V :=
  { deleteSlot t idex with size := t.size - 1 }

/-- The tail of HashMap::erase(iterator): after the deletion, rehash
everything if the tombstone ratio is too high. -/
def eraseStep {K V : Type} (hashf : K → Nat) (eqf : K → K → Bool)
    (t : Table K V) (idex : Nat) : Table K V :=
  if needRehash (postDelete t idex) then rehashEverything hashf eqf (postDelete t idex)
  else postDelete t idex

/-- HashMap::erase(const K&) = erase(find(key)): locate the key, tombstone
the slot, decrement `size_`, then compact if needRehash.  `none` marks the
diverging find; `some (false, t)` is the not-found no-op. -/
def eraseKey {K V : Type} (hashf : K → Nat) (eqf : K → K → Bool)
    (t : Table K V) (key : K) : Option (Bool × Table K V) :=
  match doFind hashf eqf t key with
  | none => none
  | some none => some (false, t)
  | some (some idex) => some (true, eraseStep hashf eqf t idex)

/-- HashMap::clear: early-return when empty; otherwise destroy all live
slots, reset all metadata to Empty and both counters to zero. -/
def clear {K V : Type} (t : Table K V) : Table K V :=
  if t.size = 0 then t
  else
    { t with
      metadata := List.replicate t.capacity EmptyMd,
      slots := List.replicate t.capacity none,
      size := 0,
      deletedCount := 0 }

/-- HashMap::reserve. -/
def reserve {K V : Type} (hashf : K → Nat) (eqf : K → K → Bool)
    (t : Table K V) (n : Nat) : Table K V :=
  if t.capacity ≥ n then t else growAndRehashTo hashf eqf t n

/-- The value stored at a slot index (`slots_[idex].value`). -/
def valueAt {K V : Type} (t : Table K V) (idex : Nat) : Option V :=
  (t.slots.getD idex none).map Prod.snd

/-- The error surfaced by HashMap::at (`std::out_of_range("key not found")`). -/
inductive MapError where
  | keyNotFound
deriving DecidableEq, Repr

/-- HashMap::at: doFind, then either the stored value or the KeyNotFound
error.  The outer `none` marks a diverging probe (or a garbage slot read,
both UB in C++).  `at` only reads the table, so the model returns no table. -/
def atMap {K V : Type} (hashf : K → Nat) (eqf : K → K → Bool)
    (t : Table K V) (key : K) : Option (Except MapError V) :=
  match doFind hashf eqf t key with
  | none => none
  | some none => some (Except.error MapError.keyNotFound)
  | some (some idex) => (valueAt t idex).map Except.ok

/-- find(key) followed by reading the mapped value: `some (some v)` = found
with value `v`, `some none` = not found, `none` = diverging probe. -/
def lookupVal {K V : Type} (hashf : K → Nat) (eqf : K → K → Bool)
    (t : Table K V) (key : K) : Option (Option V) :=
  match doFind hashf eqf t key with
  | none => none
  | some none => some none
  | some (some idex) => some (valueAt t idex)

/-- The moved-from state produced by the move constructor / move assignment:
`capacity_ = size_ = deletedCount_ = 0` and the metadata/slot buffers gone. -/
def movedFrom (K V : Type) : Table K V := ⟨0, 0, [], [], 0⟩

/-- Move construction: the destination receives every data member of the
source; the source is reset to the valid-but-empty state. -/
def moveConstruct {K V : Type} (src : Table K V) : Table K V × Table K V :=
  (src, movedFrom K V)

/-- The key of the live slot at index `i`, if that slot is live. -/
def liveKey {K V : Type} (t : Table K V) (i : Nat) : Option K :=
  if IsFree (t.metadata.getD i EmptyMd) then none
  else (t.slots.getD i none).map Prod.fst

/-- Hash function injected in the concrete traces: `hash k = 128 * k`, so
the ideal bucket is `k % capacity` and the stored H2 byte is `0`.  It is
deterministic and equal keys hash identically, as §6 requires. -/
def hash128 (k : Nat) : Nat := 128 * k

/-- Equality predicate injected in the concrete traces. -/
def eqN (a b : Nat) : Bool := a == b

/-- Insert `(k, k)` for each key of the list, via the public insert. -/
def insertKeys (ks : List Nat) (t : Table Nat Nat) : Table Nat Nat :=
  ks.foldl (fun t k => (insert hash128 eqN t (k, k)).2) t

/-- The table component of an erase result (the moot default is never hit
in the traces, which all erase a present key on a terminating probe). -/
def eraseT (t : Table Nat Nat) (k : Nat) : Table Nat Nat :=
  ((eraseKey hash128 eqN t k).getD (false, mkTable Nat Nat 0)).2

/-- Trace A: capacity-16 table, insert 1 → 10, 17 → 11, 5 → 12, 9 → 13.
Keys 1 and 17 share bucket 1, so 17 lands at slot 2. -/
def tA4 : Table Nat Nat :=
  insertKeys [1, 17, 5, 9] (mkTable Nat Nat 16)

/-- Trace A after erase(1): tombstone at slot 1 (deletedCount 1, size 3;
the tombstone ratio 1 against size 3 does not trigger a rehash). -/
def tA5 : Table Nat Nat := eraseT tA4 1

/-- Trace A: the re-insert of the already-present key 17 with value 14.
Its probe starts at bucket 1 and hits the tombstone there first. -/
def insA6 : Option (Option Nat) × Table Nat Nat :=
  insert hash128 eqN tA5 (17, 14)

/-- Trace A final state. -/
def tA6 : Table Nat Nat := insA6.2

/-- Trace B: fill a capacity-16 table with keys 0..13 (buckets 0..13). -/
def tB14 : Table Nat Nat := insertKeys (List.range 14) (mkTable Nat Nat 16)

/-- Trace B: erase keys 12 and 13 (two tombstones survive: 2 < 12 · 0.5),
then insert keys 30 and 31, which land in the Empty slots 14 and 15.
Every metadata byte is now non-Empty. -/
def tB18 : Table Nat Nat :=
  insertKeys [30, 31] (eraseT (eraseT tB14 12) 13)

/-- Trace C step: erase key `j` (tombstoning slot `j`), then insert key
`16 + j`, which reuses that tombstone without the counter being lowered. -/
def stepC (t : Table Nat Nat) (j : Nat) : Table Nat Nat :=
  (insert hash128 eqN (eraseT t j) (16 + j, 16 + j)).2

/-- Trace C: six erase/insert rounds on the full-ish table. -/
def tC : Table Nat Nat := (List.range 6).foldl stepC tB14

/-- Trace D: single insert then erase of key 5 — the erase empties the
table, so the compacting rehash is skipped by its empty-table early return. -/
def eraseD : Option (Bool × Table Nat Nat) :=
  eraseKey hash128 eqN (insertKeys [5] (mkTable Nat Nat 16)) 5

/-- Trace D final state. -/
def tD : Table Nat Nat := (eraseD.getD (false, mkTable Nat Nat 0)).2

/-- Trace A after erase(17): the erase removes the slot-1 copy of key 17,
and the tombstone ratio (2 against size 3) triggers the compacting rehash,
which keeps the other copy of 17 (value 17) at its bucket. -/
def tA7 : Table Nat Nat := eraseT tA6 17

/-- Trace A: the insert of 17 → 99 right after that erase. -/
def insA8 : Option (Option Nat) × Table Nat Nat := insert hash128 eqN tA7 (17, 99)

/-- C1: on the reachable trace A state, inserting key 17 — already live at
slot 2 but sitting past the tombstone that erase(1) left at slot 1 of its
probe sequence — lands in that tombstone, so slots 1 and 2 of the resulting
table both hold live key 17 under the injected equality predicate.  This
refutes the claimed invariant that no two live slots ever hold equal keys. -/
theorem insert_creates_duplicate_live_key :
    liveKey tA6 1 = some 17 ∧ liveKey tA6 2 = some 17 ∧ eqN 17 17 = true := by
  decide

/-- C2: on the reachable trace B state every metadata byte is non-Empty
(12 live slots, 2 tombstones, 2 live slots inserted into the last Empty
slots), key 999 is in no live slot, and the capacity-fuelled probe walk of
doFind exhausts its fuel without reaching the key or an Empty slot — the
walk revisits its start index after capacity steps, so the C++ loop never
exits.  This refutes the claimed termination guarantee. -/
theorem find_diverges_on_full_table :
    doFind hash128 eqN tB18 999 = none ∧
    tB18.metadata.all (fun m => !(m == EmptyMd)) = true ∧
    tB18.slots.all (fun s => !(s.map Prod.fst == some 999)) = true := by
  decide

/-- C3: growing the duplicate-carrying trace A table via reserve(32) drops
one of the two live copies of key 17 (its re-insertion into the fresh table
reports "already present"), so size() falls from 4 to 3 across the growth.
This refutes the claim that growth leaves size() unchanged. -/
theorem growth_changes_size :
    tA6.size = 4 ∧ (reserve hash128 eqN tA6 32).capacity = 32 ∧
    (reserve hash128 eqN tA6 32).size = 3 := by
  decide

/-- C4: in the trace A state key 17 is present (findable with value 17),
yet insert(17, 14) performs an insertion: it returns the inserted position
(slot 1, the tombstone) rather than the no-insertion outcome, and size()
grows by one.  This refutes the claimed insert-if-absent semantics for
states with tombstones on the probe path. -/
theorem insert_present_key_inserts_again :
    lookupVal hash128 eqN tA5 17 = some (some 17) ∧
    insA6.1 = some (some 1) ∧
    tA6.size = tA5.size + 1 := by
  decide

/-- C7: trace C interleaves six erase/insert rounds, each reusing the just
made tombstone without insertUnchecked lowering deletedCount, ending with
size 14 and deletedCount 6 at capacity 16: the claimed invariant
size + deletedCount ≤ capacity is violated. -/
theorem size_plus_deleted_exceeds_capacity :
    tC.size = 14 ∧ tC.deletedCount = 6 ∧ tC.capacity = 16 ∧
    ¬(tC.size + tC.deletedCount ≤ tC.capacity) := by
  decide

/-- C8: in the trace A state key 17 is live (twice); erase(17) removes one
copy and its tombstone-ratio rehash keeps the other, so the subsequent
insert(17, 99) reports "already present" (no insertion) and find(17) then
yields the stale value 17, not 99.  This refutes the claimed
erase-then-insert round-trip. -/
theorem erase_insert_roundtrip_fails :
    liveKey tA6 2 = some 17 ∧
    (eraseKey hash128 eqN tA6 17).map Prod.fst = some true ∧
    insA8.1 = some none ∧
    lookupVal hash128 eqN insA8.2 17 = some (some 17) := by
  decide

/-- C5 counterexample: inserting the 14 distinct keys 0..13 into a fresh
capacity-16 table triggers no growth (the check compares the load factor
before the insert), and after the last insert size() / capacity() = 14/16
= 0.875, which is not < 0.875. -/
theorem load_factor_reaches_bound :
    tB14.size = 14 ∧ tB14.capacity = 16 ∧
    ¬(8 * tB14.size < 7 * tB14.capacity) := by
  decide

/-- C6 counterexample: inserting key 5 and erasing it again removes an
element, but the erase leaves size() = 0 with deletedCount = 1 — the
compacting rehash is skipped by the empty-table early return — so
deletedCount < size() · 0.5 fails right after the erase returns. -/
theorem erase_last_element_keeps_tombstone :
    eraseD = some (true, tD) ∧ tD.deletedCount = 1 ∧ tD.size = 0 ∧
    ¬(2 * tD.deletedCount < tD.size) := by
  decide

/-- getD of a replicate list, within bounds. -/
theorem getD_replicate_of_lt {α : Type} (a d : α) :
    ∀ (n i : Nat), i < n → (List.replicate n a).getD i d = a := by
  intro n
  induction n with
  | zero => intro i h; exact absurd h (Nat.not_lt_zero i)
  | succ m ih =>
    intro i h
    cases i with
    | zero => rfl
    | succ j => exact ih j (Nat.lt_of_succ_lt_succ h)

/-- getD after set at the same in-bounds index. -/
theorem getD_set_self_of_lt {α : Type} (a d : α) :
    ∀ (l : List α) (i : Nat), i < l.length → (l.set i a).getD i d = a := by
  intro l
  induction l with
  | nil => intro i h; exact absurd h (Nat.not_lt_zero i)
  | cons x xs ih =>
    intro i h
    cases i with
    | zero => rfl
    | succ j => exact ih j (Nat.lt_of_succ_lt_succ h)

/-- insertUnchecked never changes the capacity. -/
theorem insertUnchecked_capacity {K V : Type} (hashf : K → Nat) (eqf : K → K → Bool)
    (t : Table K V) (kv : K × V) :
    ((insertUnchecked hashf eqf t kv).2).capacity = t.capacity := by
  rcases h : locationForInsertion hashf eqf t kv.1 with _ | (_ | loc) <;>
    simp [insertUnchecked, h]

/-- insertUnchecked grows the size by at most one. -/
theorem insertUnchecked_size_le {K V : Type} (hashf : K → Nat) (eqf : K → K → Bool)
    (t : Table K V) (kv : K × V) :
    ((insertUnchecked hashf eqf t kv).2).size ≤ t.size + 1 := by
  rcases h : locationForInsertion hashf eqf t kv.1 with _ | (_ | loc) <;>
    simp [insertUnchecked, h]

/-- insertUnchecked never changes deletedCount, even when the slot it fills
was a tombstone. -/
theorem insertUnchecked_deletedCount {K V : Type} (hashf : K → Nat) (eqf : K → K → Bool)
    (t : Table K V) (kv : K × V) :
    ((insertUnchecked hashf eqf t kv).2).deletedCount = t.deletedCount := by
  rcases h : locationForInsertion hashf eqf t kv.1 with _ | (_ | loc) <;>
    simp [insertUnchecked, h]

/-- One rehash-loop iteration never changes the capacity of the target. -/
theorem reinsertStep_capacity {K V : Type} (hashf : K → Nat) (eqf : K → K → Bool)
    (src acc : Table K V) (i : Nat) :
    (reinsertStep hashf eqf src acc i).capacity = acc.capacity := by
  unfold reinsertStep
  split
  · rfl
  · split
    · exact insertUnchecked_capacity hashf eqf acc _
    · rfl

/-- One rehash-loop iteration grows the target size by at most one. -/
theorem reinsertStep_size_le {K V : Type} (hashf : K → Nat) (eqf : K → K → Bool)
    (src acc : Table K V) (i : Nat) :
    (reinsertStep hashf eqf src acc i).size ≤ acc.size + 1 := by
  unfold reinsertStep
  split
  · omega
  · split
    · exact insertUnchecked_size_le hashf eqf acc _
    · omega

/-- One rehash-loop iteration never changes deletedCount of the target. -/
theorem reinsertStep_deletedCount {K V : Type} (hashf : K → Nat) (eqf : K → K → Bool)
    (src acc : Table K V) (i : Nat) :
    (reinsertStep hashf eqf src acc i).deletedCount = acc.deletedCount := by
  unfold reinsertStep
  split
  · rfl
  · split
    · exact insertUnchecked_deletedCount hashf eqf acc _
    · rfl

/-- The rehash loop never changes the capacity of the target table. -/
theorem reinsert_foldl_capacity {K V : Type} (hashf : K → Nat) (eqf : K → K → Bool)
    (src : Table K V) :
    ∀ (l : List Nat) (acc : Table K V),
      (l.foldl (reinsertStep hashf eqf src) acc).capacity = acc.capacity := by
  intro l
  induction l with
  | nil => intro acc; rfl
  | cons i l ih =>
    intro acc
    rw [List.foldl_cons, ih]
    exact reinsertStep_capacity hashf eqf src acc i

/-- The rehash loop adds at most one element per iteration. -/
theorem reinsert_foldl_size_le {K V : Type} (hashf : K → Nat) (eqf : K → K → Bool)
    (src : Table K V) :
    ∀ (l : List Nat) (acc : Table K V),
      (l.foldl (reinsertStep hashf eqf src) acc).size ≤ acc.size + l.length := by
  intro l
  induction l with
  | nil => intro acc; simp
  | cons i l ih =>
    intro acc
    rw [List.foldl_cons]
    have h1 := ih (reinsertStep hashf eqf src acc i)
    have h2 := reinsertStep_size_le hashf eqf src acc i
    simp only [List.length_cons]
    omega

/-- The rehash loop never changes deletedCount of the target table. -/
theorem reinsert_foldl_deletedCount {K V : Type} (hashf : K → Nat) (eqf : K → K → Bool)
    (src : Table K V) :
    ∀ (l : List Nat) (acc : Table K V),
      (l.foldl (reinsertStep hashf eqf src) acc).deletedCount = acc.deletedCount := by
  intro l
  induction l with
  | nil => intro acc; rfl
  | cons i l ih =>
    intro acc
    rw [List.foldl_cons, ih]
    exact reinsertStep_deletedCount hashf eqf src acc i

/-- reinsertAll preserves the target capacity. -/
theorem reinsertAll_capacity {K V : Type} (hashf : K → Nat) (eqf : K → K → Bool)
    (src acc : Table K V) :
    (reinsertAll hashf eqf src acc).capacity = acc.capacity :=
  reinsert_foldl_capacity hashf eqf src (List.range src.capacity) acc

/-- reinsertAll adds at most `src.capacity` elements to the target. -/
theorem reinsertAll_size_le {K V : Type} (hashf : K → Nat) (eqf : K → K → Bool)
    (src acc : Table K V) :
    (reinsertAll hashf eqf src acc).size ≤ acc.size + src.capacity := by
  have h := reinsert_foldl_size_le hashf eqf src (List.range src.capacity) acc
  simpa using h

/-- reinsertAll preserves the target deletedCount. -/
theorem reinsertAll_deletedCount {K V : Type} (hashf : K → Nat) (eqf : K → K → Bool)
    (src acc : Table K V) :
    (reinsertAll hashf eqf src acc).deletedCount = acc.deletedCount :=
  reinsert_foldl_deletedCount hashf eqf src (List.range src.capacity) acc

/-- A strict growth sets the capacity to the requested value. -/
theorem growAndRehashTo_capacity {K V : Type} (hashf : K → Nat) (eqf : K → K → Bool)
    (t : Table K V) (n : Nat) (h : t.capacity < n) :
    (growAndRehashTo hashf eqf t n).capacity = n := by
  unfold growAndRehashTo
  rw [if_neg (Nat.not_le.mpr h)]
  split
  · rfl
  · rw [reinsertAll_capacity]
    rfl

/-- A strict growth produces at most `t.capacity` live elements (one per
slot scanned by the rehash loop). -/
theorem growAndRehashTo_size_le {K V : Type} (hashf : K → Nat) (eqf : K → K → Bool)
    (t : Table K V) (n : Nat) (h : t.capacity < n) :
    (growAndRehashTo hashf eqf t n).size ≤ t.capacity := by
  unfold growAndRehashTo
  rw [if_neg (Nat.not_le.mpr h)]
  split
  · exact Nat.zero_le _
  · have h1 := reinsertAll_size_le hashf eqf t (mkTable K V n)
    simpa [mkTable] using h1

/-- Growth-on-insert produces at most `t.capacity` live elements. -/
theorem growAndRehash_size_le {K V : Type} (hashf : K → Nat) (eqf : K → K → Bool)
    (t : Table K V) :
    (growAndRehash hashf eqf t).size ≤ t.capacity := by
  unfold growAndRehash
  refine growAndRehashTo_size_le hashf eqf t _ ?_
  by_cases hc : t.capacity = 0
  · rw [if_pos hc, hc]
    simp [DefaultInitialCapacity]
  · rw [if_neg hc]
    omega

/-- Growth-on-insert at least multiplies the capacity bound by 8/7: the new
capacity is 16 from zero, else double. -/
theorem growAndRehash_capacity_ineq {K V : Type} (hashf : K → Nat) (eqf : K → K → Bool)
    (t : Table K V) :
    8 * t.capacity ≤ 7 * (growAndRehash hashf eqf t).capacity := by
  unfold growAndRehash
  by_cases hc : t.capacity = 0
  · rw [hc]
    simp
  · rw [if_neg hc]
    rw [growAndRehashTo_capacity hashf eqf t _ (by omega)]
    omega

/-- C5 amended: growth is triggered when the load factor before the insert
already reaches or exceeds 0.875 (current size, not the projected size
after the insert) or when size equals capacity; consequently, for every
table with size ≤ capacity, after insert returns the load factor is bounded
by 0.875 plus one slot: 8 · size() ≤ 7 · capacity() + 8.  The strict bound
size()/capacity() < 0.875 of the claim is attainable (see the
counterexample), but never exceeded by more than the one inserted element. -/
theorem insert_load_factor_bound {K V : Type} (hashf : K → Nat) (eqf : K → K → Bool)
    (t : Table K V) (kv : K × V) (hsc : t.size ≤ t.capacity) :
    8 * ((insert hashf eqf t kv).2).size ≤
      7 * ((insert hashf eqf t kv).2).capacity + 8 := by
  rw [show insert hashf eqf t kv =
      insertUnchecked hashf eqf
        (if needToGrowForInsert t then growAndRehash hashf eqf t else t) kv from rfl]
  by_cases hg : needToGrowForInsert t = true
  · rw [if_pos hg]
    have h1 := growAndRehash_size_le hashf eqf t
    have h2 := growAndRehash_capacity_ineq hashf eqf t
    have h3 := insertUnchecked_size_le hashf eqf (growAndRehash hashf eqf t) kv
    have h4 := insertUnchecked_capacity hashf eqf (growAndRehash hashf eqf t) kv
    rw [h4]
    omega
  · rw [if_neg hg]
    have key : t.capacity ≠ 0 ∧ 8 * t.size < 7 * t.capacity := by
      by_contra hcon
      apply hg
      simp only [needToGrowForInsert, Bool.or_eq_true, Bool.and_eq_true,
        Bool.not_eq_true', beq_iff_eq, decide_eq_true_eq]
      push_neg at hcon
      by_cases hc : t.capacity = 0
      · exact Or.inr (by omega)
      · exact Or.inl ⟨by simpa using hc, by have := hcon hc; omega⟩
    have h3 := insertUnchecked_size_le hashf eqf t kv
    have h4 := insertUnchecked_capacity hashf eqf t kv
    rw [h4]
    omega

/-- Witness for the amended C5 bound at the concrete trace B table. -/
theorem insert_load_factor_bound_witness :
    tB14.size ≤ tB14.capacity ∧
    8 * ((insert hash128 eqN tB14 (40, 40)).2).size ≤
      7 * ((insert hash128 eqN tB14 (40, 40)).2).capacity + 8 :=
  ⟨by decide, insert_load_factor_bound hash128 eqN tB14 (40, 40) (by decide)⟩

/-- C6 amended: after every erase call that removes an element and leaves
the table non-empty, deletedCount < size() · 0.5 holds: either the
tombstone ratio was already below the threshold, or the erase triggered the
compacting rehash, which resets deletedCount to 0.  (When the erase removes
the last live element the rehash is skipped by its empty-table early return
and one tombstone survives — see the counterexample.) -/
theorem erase_tombstone_bound {K V : Type} (hashf : K → Nat) (eqf : K → K → Bool)
    (t : Table K V) (k : K) (u : Table K V)
    (h : eraseKey hashf eqf t k = some (true, u)) (hpos : 0 < u.size) :
    2 * u.deletedCount < u.size := by
  unfold eraseKey at h
  rcases hf : doFind hashf eqf t k with _ | (_ | i) <;> rw [hf] at h
  · exact absurd h (by simp)
  · exact absurd h (by simp)
  · have hu : eraseStep hashf eqf t i = u := by simpa using h
    subst hu
    unfold eraseStep at hpos ⊢
    by_cases hr : needRehash (postDelete t i) = true
    · rw [if_pos hr] at hpos ⊢
      unfold rehashEverything at hpos ⊢
      by_cases h0 : (postDelete t i).size = 0
      · rw [if_pos h0] at hpos
        omega
      · rw [if_neg h0] at hpos ⊢
        rw [reinsertAll_deletedCount]
        simpa [mkTable] using hpos
    · rw [if_neg hr] at hpos ⊢
      simp only [needRehash, decide_eq_true_eq] at hr
      omega

/-- The insertion probe on a freshly constructed table finds the ideal
bucket itself Empty at its very first step. -/
theorem locationForInsertion_mkTable {K V : Type} (hashf : K → Nat) (eqf : K → K → Bool)
    (c : Nat) (hc : 0 < c) (key : K) :
    locationForInsertion hashf eqf (mkTable K V c) key =
      some (some ⟨H1 (hashf key) % c, H2 (hashf key)⟩) := by
  cases c with
  | zero => omega
  | succ m =>
    have hb : H1 (hashf key) % (m + 1) < m + 1 := Nat.mod_lt _ hc
    have hmd : (List.replicate (m + 1) EmptyMd).getD (H1 (hashf key) % (m + 1)) 0 =
        EmptyMd := getD_replicate_of_lt _ _ _ _ hb
    have hmd2 : (List.replicate (m + 1) (128 : Nat))[H1 (hashf key) % (m + 1)]?.getD 0 =
        128 := by simpa [EmptyMd] using hmd
    show probeIns eqf (mkTable K V (m + 1)) key (H2 (hashf key)) (m + 1)
        (H1 (hashf key) % (m + 1)) = _
    simp [probeIns, mkTable, IsFree, EmptyMd, hmd2]

/-- Inserting into a freshly constructed table of positive capacity places
the pair at its ideal bucket. -/
theorem insertUnchecked_mkTable {K V : Type} (hashf : K → Nat) (eqf : K → K → Bool)
    (c : Nat) (hc : 0 < c) (key : K) (val : V) :
    insertUnchecked hashf eqf (mkTable K V c) (key, val) =
      (some (some (H1 (hashf key) % c)),
        ⟨c, 1,
          (List.replicate c EmptyMd).set (H1 (hashf key) % c) (H2 (hashf key)),
          (List.replicate c (none : Option (K × V))).set (H1 (hashf key) % c)
            (some (key, val)), 0⟩) := by
  unfold insertUnchecked
  dsimp only
  rw [locationForInsertion_mkTable hashf eqf c hc key]
  rfl

/-- After that single insert, doFind locates the key at its ideal bucket in
its first probe step (given that the injected equality is reflexive at the
key, as §6 requires of any Eq consistent with Hash). -/
theorem doFind_insert_mkTable {K V : Type} (hashf : K → Nat) (eqf : K → K → Bool)
    (c : Nat) (hc : 0 < c) (key : K) (val : V) (href : eqf key key = true) :
    doFind hashf eqf ((insertUnchecked hashf eqf (mkTable K V c) (key, val)).2) key =
      some (some (H1 (hashf key) % c)) := by
  cases c with
  | zero => omega
  | succ m =>
    rw [insertUnchecked_mkTable hashf eqf (m + 1) hc key val]
    have hb : H1 (hashf key) % (m + 1) < m + 1 := Nat.mod_lt _ hc
    have hmd : ((List.replicate (m + 1) EmptyMd).set (H1 (hashf key) % (m + 1))
        (H2 (hashf key))).getD (H1 (hashf key) % (m + 1)) 0 = H2 (hashf key) :=
      getD_set_self_of_lt _ _ _ _ (by simpa using hb)
    have hsl : ((List.replicate (m + 1) (none : Option (K × V))).set
        (H1 (hashf key) % (m + 1)) (some (key, val))).getD
        (H1 (hashf key) % (m + 1)) none = some (key, val) :=
      getD_set_self_of_lt _ _ _ _ (by simpa using hb)
    have hmd2 : ((List.replicate (m + 1) EmptyMd).set (H1 (hashf key) % (m + 1))
        (H2 (hashf key)))[H1 (hashf key) % (m + 1)]?.getD 0 = H2 (hashf key) := by
      simpa using hmd
    have hsl2 : ((List.replicate (m + 1) (none : Option (K × V))).set
        (H1 (hashf key) % (m + 1)) (some (key, val)))[H1 (hashf key) % (m + 1)]?.getD
        none = some (key, val) := by
      simpa using hsl
    show probeFind eqf _ key (H2 (hashf key)) (m + 1) (H1 (hashf key) % (m + 1)) = _
    simp [probeFind, keyEqAt, hmd2, hsl2, href]

/-- C10: moving from a table leaves the source with capacity 0, size 0 and
deletedCount 0, and the first insert on the moved-from source behaves like
an insert on a table newly constructed with capacity 0: it triggers growth
from zero to DefaultInitialCapacity (16), succeeds, and makes the key
findable with its value. -/
theorem moved_from_empty_and_regrow {K V : Type} (hashf : K → Nat) (eqf : K → K → Bool)
    (src : Table K V) (k : K) (v : V) (href : eqf k k = true) :
    (moveConstruct src).2.capacity = 0 ∧
    (moveConstruct src).2.size = 0 ∧
    (moveConstruct src).2.deletedCount = 0 ∧
    (insert hashf eqf (moveConstruct src).2 (k, v)).1 =
      some (some (H1 (hashf k) % DefaultInitialCapacity)) ∧
    ((insert hashf eqf (moveConstruct src).2 (k, v)).2).capacity =
      DefaultInitialCapacity ∧
    ((insert hashf eqf (moveConstruct src).2 (k, v)).2).size = 1 ∧
    lookupVal hashf eqf ((insert hashf eqf (moveConstruct src).2 (k, v)).2) k =
      some (some v) := by
  have hc16 : 0 < DefaultInitialCapacity := by decide
  have hins : insert hashf eqf (moveConstruct src).2 (k, v) =
      insertUnchecked hashf eqf (mkTable K V DefaultInitialCapacity) (k, v) := rfl
  refine ⟨rfl, rfl, rfl, ?_, ?_, ?_, ?_⟩
  · rw [hins, insertUnchecked_mkTable hashf eqf DefaultInitialCapacity hc16 k v]
  · rw [hins, insertUnchecked_mkTable hashf eqf DefaultInitialCapacity hc16 k v]
  · rw [hins, insertUnchecked_mkTable hashf eqf DefaultInitialCapacity hc16 k v]
  · rw [hins]
    unfold lookupVal
    rw [doFind_insert_mkTable hashf eqf DefaultInitialCapacity hc16 k v href]
    rw [insertUnchecked_mkTable hashf eqf DefaultInitialCapacity hc16 k v]
    unfold valueAt
    dsimp only
    rw [getD_set_self_of_lt _ _ _ _
      (by simpa using Nat.mod_lt (H1 (hashf k)) hc16)]
    rfl

/-- Witness for the moved-from regrow theorem at a concrete table and key. -/
theorem moved_from_empty_and_regrow_witness :
    eqN 5 5 = true ∧
    ((insert hash128 eqN (moveConstruct tA4).2 (5, 7)).2).capacity =
      DefaultInitialCapacity :=
  ⟨by decide,
    (moved_from_empty_and_regrow hash128 eqN tA4 5 7 (by decide)).2.2.2.2.1⟩

/-- C9: the error taxonomy of at/find/erase whenever the probe walk
terminates.  HashMap::at fails with KeyNotFound exactly when doFind reports
the not-found outcome, and when the key is present it returns the stored
value without creating an entry (atMap reads the table and returns no
table); find and erase never produce KeyNotFound: doFind reports absence as
the not-found position, and erase on an absent key returns false and leaves
the table untouched. -/
theorem at_find_erase_error_contract {K V : Type} (hashf : K → Nat) (eqf : K → K → Bool)
    (t : Table K V) (k : K) :
    (atMap hashf eqf t k = some (Except.error MapError.keyNotFound) ↔
      doFind hashf eqf t k = some none)
    ∧ (∀ v : V, atMap hashf eqf t k = some (Except.ok v) ↔
        ∃ i, doFind hashf eqf t k = some (some i) ∧ valueAt t i = some v)
    ∧ (doFind hashf eqf t k = some none → eraseKey hashf eqf t k = some (false, t)) := by
  rcases hf : doFind hashf eqf t k with _ | (_ | i)
  · refine ⟨?_, ?_, ?_⟩ <;> simp [atMap, eraseKey, hf]
  · refine ⟨?_, ?_, ?_⟩ <;> simp [atMap, eraseKey, hf]
  · refine ⟨?_, ?_, ?_⟩
    · rcases hv : valueAt t i with _ | v <;> simp [atMap, hf, hv]
    · intro v
      simp [atMap, hf]
    · intro hcontra
      exact absurd hcontra (by simp)

/-- Witness for the C9 contract: in the trace A table, key 5 is present
with value 5, so at returns it. -/
theorem at_find_erase_error_contract_witness :
    atMap hash128 eqN tA4 5 = some (Except.ok 5) :=
  ((at_find_erase_error_contract hash128 eqN tA4 5).2.1 5).mpr
    ⟨5, by decide, by decide⟩

/-- Witness for the amended C6 bound: erase key 0 from a three-element
table; the tombstone ratio triggers the compacting rehash, and the bound
holds on the non-empty result. -/
theorem erase_tombstone_bound_witness :
    eraseKey hash128 eqN (insertKeys [0, 1, 2] (mkTable Nat Nat 16)) 0 =
      some (true, ((eraseKey hash128 eqN (insertKeys [0, 1, 2]
        (mkTable Nat Nat 16)) 0).getD (false, mkTable Nat Nat 0)).2) ∧
    0 < (((eraseKey hash128 eqN (insertKeys [0, 1, 2]
        (mkTable Nat Nat 16)) 0).getD (false, mkTable Nat Nat 0)).2).size ∧
    2 * (((eraseKey hash128 eqN (insertKeys [0, 1, 2]
        (mkTable Nat Nat 16)) 0).getD (false, mkTable Nat Nat 0)).2).deletedCount <
      (((eraseKey hash128 eqN (insertKeys [0, 1, 2]
        (mkTable Nat Nat 16)) 0).getD (false, mkTable Nat Nat 0)).2).size :=
  ⟨by decide, by decide,
    erase_tombstone_bound hash128 eqN (insertKeys [0, 1, 2] (mkTable Nat Nat 16)) 0
      _ (by decide) (by decide)⟩

end dnsge
